import Mathlib

/-!
# Verification of the highlight-selector pipeline

A shallow embedding of the two parallel Python implementations of the
highlight selector (`track1-speckit` and `track2-bmad`), together with
theorems settling the spec claims about scoring, ranking, selection,
quota handling and explanation generation.

Conventions:
* Python `int` is modelled as `Int`; list slices, dict insertion order and
  truthiness of optional strings are modelled explicitly.
* Python `dict[str, int]` (insertion ordered) is an association list with
  insert-or-overwrite-in-place semantics (`dictInsert`).
* Python `sorted`/`list.sort` with a key function is a stable sort by the
  key's lexicographic order; it is embedded as `List.insertionSort` over
  the decidable total preorder induced by the key.
-/

/-- Event record, mirroring `GameEvent` of both implementations. -/
structure GameEvent where
  id : String
  type : String
  timestamp : String
  quarter : Int
  player : String
  team : String
  description : String
  importance : String
  tags : List String
deriving DecidableEq, Repr

/-- Preference record: both fields optional, mirroring `UserPreference`. -/
structure UserPreference where
  favorite_player : Option String
  favorite_team : Option String
deriving DecidableEq, Repr

/-- Score breakdown; `context_boosts` is an insertion-ordered dict. -/
structure ScoreBreakdown where
  base_score : Int
  player_boost : Int
  team_boost : Int
  context_boosts : List (String × Int)
  total_score : Int
deriving DecidableEq, Repr

/-- Output record, mirroring `Highlight`. -/
structure Highlight where
  event : GameEvent
  rank : Nat
  score : Int
  explanation : String
deriving DecidableEq, Repr

/-- Python dict assignment `m[k] = v`: overwrite in place if the key is
present, otherwise append (insertion order preserved). -/
def dictInsert : List (String × Int) → String → Int → List (String × Int)
  | [], k, v => [(k, v)]
  | (k', v') :: rest, k, v =>
    if k' = k then (k', v) :: rest else (k', v') :: dictInsert rest k v

/-- Python dict lookup `m.get(k)`. -/
def dictLookup : List (String × Int) → String → Option Int
  | [], _ => none
  | (k', v') :: rest, k => if k' = k then some v' else dictLookup rest k

/-- `sum(m.values())`. -/
def sumValues (m : List (String × Int)) : Int :=
  (m.map Prod.snd).sum

/-- Python slice `l[:n]`, including the negative-index convention. -/
def pySliceTo {α : Type} (l : List α) (n : Int) : List α :=
  l.take (Int.toNat (if n < 0 then (l.length : Int) + n else n))

/-- Shared fold used by both implementations to build `context_boosts`
from the event's tags: recognized tags are inserted with their boost,
unrecognized tags are skipped. -/
def contextFold (lookup : String → Option Int) :
    List (String × Int) → List String → List (String × Int)
  | m, [] => m
  | m, tag :: rest =>
    match lookup tag with
    | some v => contextFold lookup (dictInsert m tag v) rest
    | none => contextFold lookup m rest

/-- `IMPORTANCE_RANK.get(importance, 0)`; the same table appears in both
implementations (`models.IMPORTANCE_RANK` and the inline dict of
`_create_sort_key`). -/
def importance_rank (s : String) : Int :=
  if s = "critical" then 4
  else if s = "high" then 3
  else if s = "medium" then 2
  else if s = "low" then 1
  else 0

/-- The sort key used by both implementations (`sort_key` in track1,
`_create_sort_key` in track2): score descending, quarter descending,
importance rank descending, id ascending. -/
def sort_key (event : GameEvent) (total_score : Int) : Int × Int × Int × String :=
  (-total_score, -event.quarter, -(importance_rank event.importance), event.id)

/-- Lexicographic `≤` on a pair: strictly smaller first component, or equal
first components and `le2` on the second. Models Python tuple comparison. -/
def lexLe {α β : Type} [LinearOrder α] (le2 : β → β → Prop) (a b : α × β) : Prop :=
  a.1 < b.1 ∨ (a.1 = b.1 ∧ le2 a.2 b.2)

instance {α β : Type} [LinearOrder α] {le2 : β → β → Prop} [DecidableRel le2] :
    DecidableRel (@lexLe α β _ le2) := fun x y =>
  decidable_of_iff (x.1 < y.1 ∨ (x.1 = y.1 ∧ le2 x.2 y.2)) Iff.rfl

theorem lexLe_total {α β : Type} [LinearOrder α] {le2 : β → β → Prop}
    (h : ∀ x y, le2 x y ∨ le2 y x) (a b : α × β) : lexLe le2 a b ∨ lexLe le2 b a := by
  rcases lt_trichotomy a.1 b.1 with h1 | h1 | h1
  · exact Or.inl (Or.inl h1)
  · rcases h a.2 b.2 with h2 | h2
    · exact Or.inl (Or.inr ⟨h1, h2⟩)
    · exact Or.inr (Or.inr ⟨h1.symm, h2⟩)
  · exact Or.inr (Or.inl h1)

theorem lexLe_trans {α β : Type} [LinearOrder α] {le2 : β → β → Prop}
    (h : ∀ x y z, le2 x y → le2 y z → le2 x z) (a b c : α × β)
    (hab : lexLe le2 a b) (hbc : lexLe le2 b c) : lexLe le2 a c := by
  rcases hab with hab | ⟨hab1, hab2⟩
  · rcases hbc with hbc | ⟨hbc1, hbc2⟩
    · exact Or.inl (lt_trans hab hbc)
    · exact Or.inl (hbc1 ▸ hab)
  · rcases hbc with hbc | ⟨hbc1, hbc2⟩
    · exact Or.inl (hab1 ▸ hbc)
    · exact Or.inr ⟨hab1.trans hbc1, h _ _ _ hab2 hbc2⟩

theorem lexLe_antisymm {α β : Type} [LinearOrder α] {le2 : β → β → Prop}
    (h : ∀ x y, le2 x y → le2 y x → x = y) (a b : α × β)
    (hab : lexLe le2 a b) (hba : lexLe le2 b a) : a = b := by
  rcases hab with hab | ⟨hab1, hab2⟩
  · rcases hba with hba | ⟨hba1, hba2⟩
    · exact absurd hba (lt_asymm hab)
    · exact absurd hab (hba1 ▸ lt_irrefl _)
  · rcases hba with hba | ⟨hba1, hba2⟩
    · exact absurd hba (hab1 ▸ lt_irrefl _)
    · exact Prod.ext hab1 (h _ _ hab2 hba2)

/-- Lexicographic `≤` on character lists by code point — how Python
compares strings. A plain structural recursion so the kernel can
evaluate it. -/
def charListLe : List Char → List Char → Bool
  | [], _ => true
  | _ :: _, [] => false
  | c :: cs, d :: ds => if c = d then charListLe cs ds else decide (c < d)

/-- Python string `≤`. -/
def strLe (s t : String) : Prop := charListLe s.data t.data = true

instance : DecidableRel strLe := fun s t => by
  unfold strLe
  infer_instance

theorem charListLe_total : ∀ l1 l2 : List Char,
    charListLe l1 l2 = true ∨ charListLe l2 l1 = true := by
  intro l1
  induction l1 with
  | nil => intro l2; left; rfl
  | cons c cs ih =>
    intro l2
    cases l2 with
    | nil => right; rfl
    | cons d ds =>
      by_cases h : c = d
      · subst h
        rcases ih ds with h' | h'
        · left; simpa [charListLe] using h'
        · right; simpa [charListLe] using h'
      · rcases lt_trichotomy c d with hlt | heq | hgt
        · left; simp [charListLe, h, hlt]
        · exact absurd heq h
        · right
          have hdc : ¬d = c := fun hh => h hh.symm
          simp [charListLe, hdc, hgt]

theorem charListLe_trans : ∀ l1 l2 l3 : List Char,
    charListLe l1 l2 = true → charListLe l2 l3 = true → charListLe l1 l3 = true := by
  intro l1
  induction l1 with
  | nil => intro l2 l3 _ _; rfl
  | cons c cs ih =>
    intro l2 l3 h12 h23
    cases l2 with
    | nil => simp [charListLe] at h12
    | cons d ds =>
      cases l3 with
      | nil => simp [charListLe] at h23
      | cons e es =>
        by_cases hcd : c = d
        · subst hcd
          by_cases hde : c = e
          · subst hde
            simp only [charListLe, if_pos rfl] at h12 h23 ⊢
            exact ih ds es h12 h23
          · simp only [charListLe, if_pos rfl] at h12
            simp [charListLe, hde] at h23 ⊢
            exact h23
        · by_cases hde : d = e
          · subst hde
            simp [charListLe, hcd] at h12 ⊢
            exact h12
          · simp [charListLe, hcd] at h12
            simp [charListLe, hde] at h23
            have hce : c < e := lt_trans h12 h23
            simp [charListLe, ne_of_lt hce, hce]

theorem charListLe_antisymm : ∀ l1 l2 : List Char,
    charListLe l1 l2 = true → charListLe l2 l1 = true → l1 = l2 := by
  intro l1
  induction l1 with
  | nil =>
    intro l2 h12 h21
    cases l2 with
    | nil => rfl
    | cons d ds => simp [charListLe] at h21
  | cons c cs ih =>
    intro l2 h12 h21
    cases l2 with
    | nil => simp [charListLe] at h12
    | cons d ds =>
      by_cases hcd : c = d
      · subst hcd
        simp only [charListLe, if_pos rfl] at h12 h21
        rw [ih ds h12 h21]
      · have hdc : ¬d = c := fun hh => hcd hh.symm
        simp [charListLe, hcd] at h12
        simp [charListLe, hdc] at h21
        exact absurd h21 (lt_asymm h12)

theorem strLe_total (s t : String) : strLe s t ∨ strLe t s :=
  charListLe_total s.data t.data

theorem strLe_trans (s t u : String) (h1 : strLe s t) (h2 : strLe t u) : strLe s u :=
  charListLe_trans s.data t.data u.data h1 h2

theorem strLe_antisymm (s t : String) (h1 : strLe s t) (h2 : strLe t s) : s = t := by
  have hd : s.data = t.data := charListLe_antisymm s.data t.data h1 h2
  cases s
  cases t
  exact congrArg String.mk hd

/-- Python `≤` on 4-tuples `(Int, Int, Int, String)`. -/
def keyLe (a b : Int × Int × Int × String) : Prop :=
  lexLe (lexLe (lexLe strLe)) a b

instance : DecidableRel keyLe := fun a b => by
  unfold keyLe
  infer_instance

theorem keyLe_total (a b : Int × Int × Int × String) : keyLe a b ∨ keyLe b a := by
  unfold keyLe
  refine lexLe_total ?_ a b
  intro x y
  refine lexLe_total ?_ x y
  intro x y
  refine lexLe_total ?_ x y
  intro s t
  exact strLe_total s t

theorem keyLe_trans (a b c : Int × Int × Int × String)
    (hab : keyLe a b) (hbc : keyLe b c) : keyLe a c := by
  unfold keyLe at *
  refine lexLe_trans ?_ a b c hab hbc
  intro x y z hxy hyz
  refine lexLe_trans ?_ x y z hxy hyz
  intro x y z hxy hyz
  refine lexLe_trans ?_ x y z hxy hyz
  intro s t u hst htu
  exact strLe_trans s t u hst htu

theorem keyLe_antisymm (a b : Int × Int × Int × String)
    (hab : keyLe a b) (hba : keyLe b a) : a = b := by
  unfold keyLe at *
  refine lexLe_antisymm ?_ a b hab hba
  intro x y hxy hyx
  refine lexLe_antisymm ?_ x y hxy hyx
  intro x y hxy hyx
  refine lexLe_antisymm ?_ x y hxy hyx
  intro s t hst hts
  exact strLe_antisymm s t hst hts

/-- The comparator on scored events used by both pipelines: `≤` on sort keys. -/
def evLe (x y : GameEvent × ScoreBreakdown) : Prop :=
  keyLe (sort_key x.1 x.2.total_score) (sort_key y.1 y.2.total_score)

instance : DecidableRel evLe := fun x y => by
  unfold evLe
  infer_instance

instance : IsTotal (GameEvent × ScoreBreakdown) evLe :=
  ⟨fun _ _ => keyLe_total _ _⟩

instance : IsTrans (GameEvent × ScoreBreakdown) evLe :=
  ⟨fun _ _ _ => keyLe_trans _ _ _⟩

/-- Replace every `_` by a space, as `type.replace("_", " ")` does for the
single-character separator. -/
def typeDisplay (s : String) : String :=
  String.map (fun c => if c = '_' then ' ' else c) s

/-- Python `s[0].upper() + s[1:]` for a non-empty ASCII string. -/
def capFirst (s : String) : String :=
  match s.data with
  | [] => ""
  | c :: cs => String.mk (c.toUpper :: cs)

namespace Track1

/-- `BASE_SCORES` lookup of `selector.py` (track1). -/
def BASE_SCORES (s : String) : Option Int :=
  if s = "critical" then some 100
  else if s = "high" then some 75
  else if s = "medium" then some 50
  else if s = "low" then some 25
  else none

/-- `CONTEXT_BOOST_MAP` of `selector.py` (track1). -/
def CONTEXT_BOOST_MAP (s : String) : Option Int :=
  if s = "clutch" then some 20
  else if s = "highlight_reel" then some 15
  else if s = "game_winner" then some 25
  else if s = "buzzer_beater" then some 20
  else none

/-- `ScoreBreakdown.__post_init__` of track1 `models.py`: the dataclass
constructor recomputes `total_score` as the component sum whenever the
provided value is `0` (the default used by `score_event`). -/
def mkScoreBreakdown (b p t : Int) (cb : List (String × Int)) (total : Int) : ScoreBreakdown :=
  if total = 0 then ⟨b, p, t, cb, b + p + t + sumValues cb⟩ else ⟨b, p, t, cb, total⟩

/-- `score_event` of track1 `selector.py`. Python truthiness of
`prefs.favorite_player` / `prefs.favorite_team` (None or empty string is
falsy) is modelled explicitly. -/
def score_event (event : GameEvent) (prefs : Option UserPreference) : ScoreBreakdown :=
  let base_score : Int :=
    match BASE_SCORES event.importance with
    | some v => v
    | none => 25
  let player_boost : Int :=
    match prefs with
    | none => 0
    | some p =>
      match p.favorite_player with
      | none => 0
      | some fp => if fp ≠ "" ∧ event.player = fp then 30 else 0
  let team_boost : Int :=
    match prefs with
    | none => 0
    | some p =>
      match p.favorite_team with
      | none => 0
      | some ft => if ft ≠ "" ∧ event.team = ft then 15 else 0
  let tagBoosts := contextFold CONTEXT_BOOST_MAP [] event.tags
  let context_boosts :=
    if event.quarter = 4 then dictInsert tagBoosts "fourth_quarter" 10 else tagBoosts
  mkScoreBreakdown base_score player_boost team_boost context_boosts 0

/-- The fill loop of `rank_and_filter`: append non-critical items in order
while the running result is shorter than `max_count`. -/
def fillLoop (maxc : Int) : List (GameEvent × ScoreBreakdown) →
    List (GameEvent × ScoreBreakdown) → List (GameEvent × ScoreBreakdown)
  | result, [] => result
  | result, item :: rest =>
    if (result.length : Int) ≥ maxc then result
    else fillLoop maxc (result ++ [item]) rest

/-- Body of `rank_and_filter` after the initial sort: partition into
critical and non-critical, cap the critical list at `max_count`
(`critical[:max_count]`), fill from the non-critical list, re-sort. -/
def rankCore (sorted : List (GameEvent × ScoreBreakdown)) (max_count : Int) :
    List (GameEvent × ScoreBreakdown) :=
  let critical := sorted.filter (fun item => item.1.importance == "critical")
  let non_critical := sorted.filter (fun item => !(item.1.importance == "critical"))
  let critical2 :=
    if (critical.length : Int) > max_count then pySliceTo critical max_count else critical
  let result := fillLoop max_count critical2 non_critical
  List.insertionSort evLe result

/-- `rank_and_filter` of track1 `selector.py`. `min_count` is accepted but
never read by the Python body. -/
def rank_and_filter (scored_events : List (GameEvent × ScoreBreakdown))
    (min_count max_count : Int) : List (GameEvent × ScoreBreakdown) :=
  if scored_events.isEmpty then []
  else rankCore (List.insertionSort evLe scored_events) max_count

/-- `generate_explanation` of track1 `selector.py`, sentence 1. -/
def sentence1 (event : GameEvent) : String :=
  let t := typeDisplay event.type
  if event.importance = "critical" then
    "This critical " ++ t ++ " by " ++ event.player ++ " was a defining moment of the game."
  else if event.importance = "high" then
    "A high-impact " ++ t ++ " by " ++ event.player ++ " that made a significant difference."
  else if event.importance = "medium" then
    "A notable " ++ t ++ " by " ++ event.player ++ " that contributed to the game\x27s story."
  else
    "This " ++ t ++ " by " ++ event.player ++ " added to the overall flow of the game."

/-- The `details` clause list of `generate_explanation` (track1), in the
fixed Python check order. -/
def detailsList (event : GameEvent) (breakdown : ScoreBreakdown) : List String :=
  (if event.tags.contains "game_winner" then ["sealed the victory"] else []) ++
  (if event.tags.contains "clutch" ∧ event.quarter = 4 then ["in a clutch fourth-quarter moment"]
   else if event.tags.contains "clutch" then ["in a clutch moment"] else []) ++
  (if event.tags.contains "buzzer_beater" then ["right at the buzzer"] else []) ++
  (if event.tags.contains "highlight_reel" ∧ ¬event.tags.contains "game_winner" then
    ["a highlight-reel play"] else []) ++
  (if breakdown.player_boost > 0 then ["featuring your favorite player, " ++ event.player]
   else []) ++
  (if breakdown.team_boost > 0 then ["by your favorite team, the " ++ event.team] else [])

/-- `generate_explanation` of track1 `selector.py`. -/
def generate_explanation (event : GameEvent) (breakdown : ScoreBreakdown) : String :=
  let s1 := sentence1 event
  match detailsList event breakdown with
  | [] => s1
  | d => s1 ++ " " ++ (capFirst (String.intercalate ", " d) ++ ".")

/-- One `Highlight` as built by the orchestrator loop. -/
def toHighlight (r : Nat) (x : GameEvent × ScoreBreakdown) : Highlight :=
  ⟨x.1, r, x.2.total_score, generate_explanation x.1 x.2⟩

/-- `enumerate(filtered, start=1)` loop of `select_highlights` (track1). -/
def buildHighlights : Nat → List (GameEvent × ScoreBreakdown) → List Highlight
  | _, [] => []
  | r, x :: rest => toHighlight r x :: buildHighlights (r + 1) rest

/-- FR-011 of track1 `select_highlights`: `None` preferences are replaced
by an empty `UserPreference()`. -/
def normalizePrefs (prefs : Option UserPreference) : Option UserPreference :=
  match prefs with
  | none => some ⟨none, none⟩
  | some p => some p

/-- `select_highlights` of track1 `selector.py`. -/
def select_highlights (events : List GameEvent) (prefs : Option UserPreference)
    (min_count max_count : Int) : List Highlight :=
  if events.isEmpty then []
  else
    buildHighlights 1
      (rank_and_filter (events.map (fun e => (e, score_event e (normalizePrefs prefs))))
        min_count max_count)

end Track1

namespace Track2

/-- `calculate_base_score` of track2 `selector.py` (`importance_map.get(…, 25)`). -/
def calculate_base_score (event : GameEvent) : Int :=
  if event.importance = "critical" then 100
  else if event.importance = "high" then 75
  else if event.importance = "medium" then 50
  else if event.importance = "low" then 25
  else 25

/-- `calculate_player_boost` of track2 `selector.py`. The Python code checks
only `is None`, so an empty favorite string still matches. -/
def calculate_player_boost (event : GameEvent) (preference : Option UserPreference) : Int :=
  match preference with
  | none => 0
  | some p =>
    match p.favorite_player with
    | none => 0
    | some fp => if event.player = fp then 30 else 0

/-- `calculate_team_boost` of track2 `selector.py`. -/
def calculate_team_boost (event : GameEvent) (preference : Option UserPreference) : Int :=
  match preference with
  | none => 0
  | some p =>
    match p.favorite_team with
    | none => 0
    | some ft => if event.team = ft then 15 else 0

/-- `tag_boost_map` of track2 `calculate_context_boosts`: note
`buzzer_beater` is 15 here and `fourth_quarter` is a plain tag. -/
def tag_boost_map (s : String) : Option Int :=
  if s = "clutch" then some 20
  else if s = "game_winner" then some 25
  else if s = "buzzer_beater" then some 15
  else if s = "highlight_reel" then some 15
  else if s = "fourth_quarter" then some 10
  else none

/-- `calculate_context_boosts` of track2 `selector.py`: driven purely by the
event's tags, with no quarter check. -/
def calculate_context_boosts (event : GameEvent) : List (String × Int) :=
  contextFold tag_boost_map [] event.tags

/-- `calculate_score` of track2 `selector.py`. -/
def calculate_score (event : GameEvent) (preference : Option UserPreference) : ScoreBreakdown :=
  let base := calculate_base_score event
  let player := calculate_player_boost event preference
  let team := calculate_team_boost event preference
  let context := calculate_context_boosts event
  ⟨base, player, team, context, base + player + team + sumValues context⟩

/-- `_apply_favorite_player_rule` of track2 `selector.py`. Availability of
favorite-player events is measured inside `scored_events` (the already-made
selection), and the rebuild draws `all_fav_events` from the same list. -/
def apply_favorite_player_rule (scored_events : List (GameEvent × ScoreBreakdown))
    (favorite_player : String) : List (GameEvent × ScoreBreakdown) :=
  let fav_events := scored_events.filter (fun x => x.1.player == favorite_player)
  if fav_events.length < 3 then scored_events
  else
    let selection_size := scored_events.length
    let required_fav_count := (selection_size + 1) / 2
    let current_fav_count := scored_events.countP (fun x => x.1.player == favorite_player)
    if current_fav_count ≥ required_fav_count then scored_events
    else
      let non_fav_in_selection :=
        scored_events.filter (fun x => !(x.1.player == favorite_player))
      let all_fav_events := scored_events.filter (fun x => x.1.player == favorite_player)
      let selected_fav := pySliceTo all_fav_events (required_fav_count : Int)
      let remaining_slots := (selection_size : Int) - (selected_fav.length : Int)
      let selected_non_fav := pySliceTo non_fav_in_selection remaining_slots
      List.insertionSort evLe (selected_fav ++ selected_non_fav)

/-- `importance_phrases.get(…, "Notable play")` of `_generate_explanation`. -/
def importancePhrase (s : String) : String :=
  if s = "critical" then "Critical game moment"
  else if s = "high" then "High-impact play"
  else if s = "medium" then "Notable play"
  else if s = "low" then "Contributing play"
  else "Notable play"

/-- Phrase table for context tags in `_generate_explanation` (track2). -/
def tagPhrase (s : String) : Option String :=
  if s = "clutch" then some "in a clutch situation"
  else if s = "game_winner" then some "as the game-winner"
  else if s = "buzzer_beater" then some "at the buzzer"
  else if s = "highlight_reel" then some "with highlight-reel quality"
  else if s = "fourth_quarter" then some "in the critical fourth quarter"
  else none

/-- The `for tag in breakdown.context_boosts: … break` loop: first key with
a known phrase contributes, then the loop stops. -/
def firstContextPhrase : List (String × Int) → List String
  | [] => []
  | (tag, _) :: rest =>
    match tagPhrase tag with
    | some s => [s]
    | none => firstContextPhrase rest

/-- `_generate_explanation` of track2 `selector.py`. -/
def generate_explanation (event : GameEvent) (breakdown : ScoreBreakdown)
    (preference : Option UserPreference) : String :=
  let parts : List String :=
    [importancePhrase event.importance] ++
    (if breakdown.player_boost > 0 then
      ["featuring your favorite player " ++ event.player]
     else if breakdown.team_boost > 0 then
      ["by your favorite team " ++ event.team]
     else []) ++
    firstContextPhrase breakdown.context_boosts
  match parts with
  | [] => ""
  | [p] => p ++ "."
  | p :: rest => p ++ " " ++ String.intercalate " " rest ++ "."

/-- One `Highlight` as built by the track2 rank-assignment loop. -/
def toHighlight (preference : Option UserPreference) (r : Nat)
    (x : GameEvent × ScoreBreakdown) : Highlight :=
  ⟨x.1, r, x.2.total_score, generate_explanation x.1 x.2 preference⟩

/-- `enumerate(selected, start=1)` loop of track2 `select_highlights`. -/
def buildHighlights (preference : Option UserPreference) :
    Nat → List (GameEvent × ScoreBreakdown) → List Highlight
  | _, [] => []
  | r, x :: rest => toHighlight preference r x :: buildHighlights preference (r + 1) rest

/-- Steps 3-6 of track2 `select_highlights`, applied to the sorted scored
list: partition, non-critical count selection, favorite-player rule
(guarded by Python truthiness of `preference.favorite_player`), and
rank assignment. There is no final re-sort. -/
def select_core (sorted : List (GameEvent × ScoreBreakdown))
    (preference : Option UserPreference) (min_count max_count : Int) : List Highlight :=
  let critical_events := sorted.filter (fun x => x.1.importance == "critical")
  let non_critical_events := sorted.filter (fun x => !(x.1.importance == "critical"))
  let num_non_critical := non_critical_events.length
  let selected_non_critical :=
    if (num_non_critical : Int) ≤ min_count then non_critical_events
    else if (num_non_critical : Int) ≤ max_count then non_critical_events
    else pySliceTo non_critical_events max_count
  let selected := critical_events ++ selected_non_critical
  let selected2 :=
    match preference with
    | none => selected
    | some p =>
      match p.favorite_player with
      | none => selected
      | some fp => if fp = "" then selected else apply_favorite_player_rule selected fp
  buildHighlights preference 1 selected2

/-- `select_highlights` of track2 `selector.py`. -/
def select_highlights (events : List GameEvent) (preference : Option UserPreference)
    (min_count max_count : Int) : List Highlight :=
  if events.isEmpty then []
  else
    select_core (List.insertionSort evLe (events.map (fun e => (e, calculate_score e preference))))
      preference min_count max_count

end Track2

/-- The tie-break comparator read off a `Highlight` (score, quarter,
importance rank, id), used to state output-ordering claims. -/
def hlLe (h1 h2 : Highlight) : Prop :=
  keyLe (sort_key h1.event h1.score) (sort_key h2.event h2.score)

instance : DecidableRel hlLe := fun x y => by
  unfold hlLe
  infer_instance

/-- Test fixture: an event with the given id, importance, quarter, player
and tags. -/
def mkEvent (i imp : String) (q : Int) (pl : String) (tg : List String) : GameEvent :=
  ⟨i, "dunk", "", q, pl, "T", "", imp, tg⟩

/-- Nine critical events with distinct ids (all other fields equal). -/
def exNineCritical : List GameEvent :=
  [mkEvent "c1" "critical" 1 "P" [], mkEvent "c2" "critical" 1 "P" [],
   mkEvent "c3" "critical" 1 "P" [], mkEvent "c4" "critical" 1 "P" [],
   mkEvent "c5" "critical" 1 "P" [], mkEvent "c6" "critical" 1 "P" [],
   mkEvent "c7" "critical" 1 "P" [], mkEvent "c8" "critical" 1 "P" [],
   mkEvent "c9" "critical" 1 "P" []]

/-- Four low-importance events of player `Star` plus eight high-importance
events of player `Other`. -/
def exQuotaEvents : List GameEvent :=
  [mkEvent "s1" "low" 1 "Star" [], mkEvent "s2" "low" 1 "Star" [],
   mkEvent "s3" "low" 1 "Star" [], mkEvent "s4" "low" 1 "Star" [],
   mkEvent "o1" "high" 1 "Other" [], mkEvent "o2" "high" 1 "Other" [],
   mkEvent "o3" "high" 1 "Other" [], mkEvent "o4" "high" 1 "Other" [],
   mkEvent "o5" "high" 1 "Other" [], mkEvent "o6" "high" 1 "Other" [],
   mkEvent "o7" "high" 1 "Other" [], mkEvent "o8" "high" 1 "Other" []]

/-- Two critical events plus nine medium events. -/
def exTwoCritNineMedium : List GameEvent :=
  [mkEvent "c1" "critical" 1 "P" [], mkEvent "c2" "critical" 1 "P" [],
   mkEvent "m1" "medium" 1 "P" [], mkEvent "m2" "medium" 1 "P" [],
   mkEvent "m3" "medium" 1 "P" [], mkEvent "m4" "medium" 1 "P" [],
   mkEvent "m5" "medium" 1 "P" [], mkEvent "m6" "medium" 1 "P" [],
   mkEvent "m7" "medium" 1 "P" [], mkEvent "m8" "medium" 1 "P" [],
   mkEvent "m9" "medium" 1 "P" []]

/-- Nine medium events with distinct ids. -/
def exNineMedium : List GameEvent :=
  [mkEvent "m1" "medium" 1 "P" [], mkEvent "m2" "medium" 1 "P" [],
   mkEvent "m3" "medium" 1 "P" [], mkEvent "m4" "medium" 1 "P" [],
   mkEvent "m5" "medium" 1 "P" [], mkEvent "m6" "medium" 1 "P" [],
   mkEvent "m7" "medium" 1 "P" [], mkEvent "m8" "medium" 1 "P" [],
   mkEvent "m9" "medium" 1 "P" []]

/-- A plain critical event (score 100 in both implementations). -/
def exPlainCritical : GameEvent := ⟨"a", "dunk", "", 1, "P1", "T1", "", "critical", []⟩

/-- A boosted high event (score 75 + 20 + 25 = 120 in both implementations). -/
def exBoostedHigh : GameEvent :=
  ⟨"b", "shot", "", 1, "P2", "T2", "", "high", ["clutch", "game_winner"]⟩

/-- A fourth-quarter event carrying only a `buzzer_beater` tag. -/
def exBuzzerQ4 : GameEvent := mkEvent "z" "high" 4 "P" ["buzzer_beater"]

/-- Small events used to instantiate the permutation-invariance theorem. -/
def exW1 : GameEvent := mkEvent "w1" "high" 1 "P" []

/-- Second small event for the permutation-invariance instance. -/
def exW2 : GameEvent := mkEvent "w2" "low" 2 "Q" []

/-! ## Dictionary lemmas -/

theorem dictLookup_dictInsert (m : List (String × Int)) (k k' : String) (v : Int) :
    dictLookup (dictInsert m k v) k' = if k' = k then some v else dictLookup m k' := by
  induction m with
  | nil =>
    by_cases h : k' = k
    · simp [dictInsert, dictLookup, h]
    · have h2 : ¬k = k' := fun hh => h hh.symm
      simp [dictInsert, dictLookup, h, h2]
  | cons hd tl ih =>
    obtain ⟨k0, v0⟩ := hd
    by_cases h0 : k0 = k
    · subst h0
      by_cases h : k' = k0
      · simp [dictInsert, dictLookup, h]
      · have h2 : ¬k0 = k' := fun hh => h hh.symm
        simp [dictInsert, dictLookup, h, h2]
    · by_cases h : k0 = k'
      · subst h
        have h2 : ¬k0 = k := h0
        have h3 : ¬k0 = k := h0
        simp [dictInsert, dictLookup, h2, h3]
      · simp [dictInsert, dictLookup, h0, h, ih]

theorem dictLookup_contextFold (f : String → Option Int) (k : String) :
    ∀ (tags : List String) (m : List (String × Int)),
      dictLookup (contextFold f m tags) k =
        if k ∈ tags ∧ (f k).isSome then f k else dictLookup m k := by
  intro tags
  induction tags with
  | nil => intro m; simp [contextFold]
  | cons t rest ih =>
    intro m
    simp only [contextFold]
    cases hft : f t with
    | some v =>
      rw [ih]
      by_cases hk : k = t
      · subst hk
        by_cases hr : k ∈ rest
        · simp [hr, hft]
        · simp [hr, hft, dictLookup_dictInsert]
      · simp [dictLookup_dictInsert, hk, List.mem_cons]
    | none =>
      rw [ih]
      by_cases hk : k = t
      · subst hk
        simp [hft, List.mem_cons]
      · simp [List.mem_cons, hk]

theorem mem_keys_dictInsert (m : List (String × Int)) (k v x) :
    x ∈ (dictInsert m k v).map Prod.fst ↔ x = k ∨ x ∈ m.map Prod.fst := by
  induction m with
  | nil => simp [dictInsert]
  | cons hd tl ih =>
    obtain ⟨k0, v0⟩ := hd
    by_cases h0 : k0 = k
    · subst h0
      simp [dictInsert]
    · simp only [dictInsert, if_neg h0, List.map_cons, List.mem_cons, ih]
      tauto

theorem keys_nodup_dictInsert (m : List (String × Int)) (k : String) (v : Int)
    (h : (m.map Prod.fst).Nodup) : ((dictInsert m k v).map Prod.fst).Nodup := by
  induction m with
  | nil => simp [dictInsert]
  | cons hd tl ih =>
    obtain ⟨k0, v0⟩ := hd
    simp only [List.map_cons, List.nodup_cons] at h
    by_cases h0 : k0 = k
    · subst h0
      have he : dictInsert ((k0, v0) :: tl) k0 v = (k0, v) :: tl := by
        simp [dictInsert]
      rw [he]
      simp only [List.map_cons, List.nodup_cons]
      exact h
    · have he : dictInsert ((k0, v0) :: tl) k v = (k0, v0) :: dictInsert tl k v := by
        simp [dictInsert, h0]
      rw [he]
      simp only [List.map_cons, List.nodup_cons]
      refine ⟨?_, ih h.2⟩
      intro hmem
      rcases (mem_keys_dictInsert tl k v k0).mp hmem with h' | h'
      · exact h0 h'
      · exact h.1 h'

theorem keys_nodup_contextFold (f : String → Option Int) :
    ∀ (tags : List String) (m : List (String × Int)),
      (m.map Prod.fst).Nodup → ((contextFold f m tags).map Prod.fst).Nodup := by
  intro tags
  induction tags with
  | nil => intro m h; simpa [contextFold] using h
  | cons t rest ih =>
    intro m h
    simp only [contextFold]
    cases f t with
    | some v => exact ih _ (keys_nodup_dictInsert m t v h)
    | none => exact ih _ h

/-! ## Uniqueness of sorted permutations -/

/-- Two sorted lists that are permutations of each other are equal, as long
as `r` is antisymmetric on the elements involved. -/
theorem sorted_perm_eq_of_antisymm {α : Type} {r : α → α → Prop} :
    ∀ {l₁ l₂ : List α}, l₁.Perm l₂ → l₁.Sorted r → l₂.Sorted r →
      (∀ a ∈ l₁, ∀ b ∈ l₁, r a b → r b a → a = b) → l₁ = l₂ := by
  intro l₁
  induction l₁ with
  | nil =>
    intro l₂ hp _ _ _
    exact hp.nil_eq
  | cons a t₁ ih =>
    intro l₂ hp hs₁ hs₂ hanti
    cases l₂ with
    | nil => exact absurd hp.eq_nil (List.cons_ne_nil a t₁)
    | cons b t₂ =>
      have hb : b ∈ a :: t₁ := hp.mem_iff.mpr (List.mem_cons_self b t₂)
      have hab : a = b := by
        rcases List.mem_cons.mp hb with h | h
        · exact h.symm
        · have ha : a ∈ b :: t₂ := hp.mem_iff.mp (List.mem_cons_self a t₁)
          rcases List.mem_cons.mp ha with h' | h'
          · exact h'
          · have r1 : r a b := List.rel_of_sorted_cons hs₁ b h
            have r2 : r b a := List.rel_of_sorted_cons hs₂ a h'
            exact hanti a (List.mem_cons_self a t₁) b hb r1 r2
      subst hab
      have hp' : t₁.Perm t₂ := hp.cons_inv
      have ht : t₁ = t₂ :=
        ih hp' hs₁.of_cons hs₂.of_cons
          (fun x hx y hy hr hr' =>
            hanti x (List.mem_cons_of_mem a hx) y (List.mem_cons_of_mem a hy) hr hr')
      rw [ht]

/-! ## Slice, fill and length lemmas -/

theorem pySliceTo_eq_take {α : Type} (l : List α) (n : Int) (h : 0 ≤ n) :
    pySliceTo l n = l.take n.toNat := by
  unfold pySliceTo
  rw [if_neg (by omega)]

theorem pySliceTo_all {α : Type} (l : List α) (n : Int) (h : (l.length : Int) ≤ n) :
    pySliceTo l n = l := by
  have h0 : 0 ≤ n := le_trans (Int.natCast_nonneg _) h
  rw [pySliceTo_eq_take l n h0]
  exact List.take_of_length_le (by omega)

theorem length_pySliceTo {α : Type} (l : List α) (n : Int) (h : 0 ≤ n) :
    ((pySliceTo l n).length : Int) = min (l.length : Int) n := by
  rw [pySliceTo_eq_take l n h]
  rw [List.length_take]
  push_cast
  omega

theorem fillLoop_length (maxc : Int) :
    ∀ (nc res : List (GameEvent × ScoreBreakdown)),
      ((Track1.fillLoop maxc res nc).length : Int) =
        if (res.length : Int) ≥ maxc then (res.length : Int)
        else min ((res.length : Int) + nc.length) maxc := by
  intro nc
  induction nc with
  | nil =>
    intro res
    by_cases h : (res.length : Int) ≥ maxc
    · simp [Track1.fillLoop, h]
    · simp only [Track1.fillLoop, if_neg h, List.length_nil]
      omega
  | cons item rest ih =>
    intro res
    by_cases h : (res.length : Int) ≥ maxc
    · simp [Track1.fillLoop, h]
    · have hstep : Track1.fillLoop maxc res (item :: rest) =
          Track1.fillLoop maxc (res ++ [item]) rest := by
        simp [Track1.fillLoop, h]
      rw [hstep, ih]
      rw [if_neg h]
      push_cast [List.length_append, List.length_cons, List.length_nil]
      split_ifs <;> omega

theorem filter_not_length {α : Type} (p : α → Bool) (l : List α) :
    (l.filter p).length + (l.filter (fun x => !p x)).length = l.length := by
  have := (List.filter_append_perm p l).length_eq
  simpa [List.length_append] using this

theorem rank_and_filter_length (scored : List (GameEvent × ScoreBreakdown))
    (minc maxc : Int) (hmax : 0 ≤ maxc) (hne : scored ≠ []) :
    ((Track1.rank_and_filter scored minc maxc).length : Int) =
      min (scored.length : Int) maxc := by
  unfold Track1.rank_and_filter
  rw [if_neg (by simpa [List.isEmpty_iff] using hne)]
  simp only [Track1.rankCore]
  have hlen : (List.insertionSort evLe scored).length = scored.length :=
    (List.perm_insertionSort evLe scored).length_eq
  set sorted := List.insertionSort evLe scored with hsorted
  set critical := sorted.filter (fun item => item.1.importance == "critical") with hcrit
  set non_critical := sorted.filter (fun item => !(item.1.importance == "critical"))
    with hnoncrit
  have hsplit : critical.length + non_critical.length = scored.length := by
    rw [hcrit, hnoncrit, ← hlen]
    exact filter_not_length _ sorted
  have hsort2 : ∀ l : List (GameEvent × ScoreBreakdown),
      (List.insertionSort evLe l).length = l.length :=
    fun l => (List.perm_insertionSort evLe l).length_eq
  by_cases hcap : (critical.length : Int) > maxc
  · rw [if_pos hcap]
    rw [hsort2, fillLoop_length]
    have hsl : ((pySliceTo critical maxc).length : Int) = min (critical.length : Int) maxc :=
      length_pySliceTo _ _ hmax
    rw [hsl]
    split_ifs <;> omega
  · rw [if_neg hcap]
    rw [hsort2, fillLoop_length]
    split_ifs <;> omega

/-! ## The track2 favorite-player rule is a permutation of its input -/

theorem apply_favorite_player_rule_perm (l : List (GameEvent × ScoreBreakdown))
    (fav : String) : (Track2.apply_favorite_player_rule l fav).Perm l := by
  simp only [Track2.apply_favorite_player_rule]
  set p : GameEvent × ScoreBreakdown → Bool := fun x => x.1.player == fav with hp
  by_cases h1 : (l.filter p).length < 3
  · rw [if_pos h1]
  · rw [if_neg h1]
    by_cases h2 : l.countP p ≥ (l.length + 1) / 2
    · rw [if_pos h2]
    · rw [if_neg h2]
      have hcount : l.countP p = (l.filter p).length := List.countP_eq_length_filter _ _
      have hlt : (l.filter p).length < (l.length + 1) / 2 := by
        omega
      have hfavall : pySliceTo (l.filter p) (((l.length + 1) / 2 : Nat) : Int) = l.filter p := by
        apply pySliceTo_all
        push_cast
        omega
      rw [hfavall]
      have hnonlen : (l.filter (fun x => !p x)).length = l.length - (l.filter p).length := by
        have := filter_not_length p l
        omega
      have hnonall :
          pySliceTo (l.filter (fun x => !p x))
            ((l.length : Int) - ((l.filter p).length : Int)) = l.filter (fun x => !p x) := by
        apply pySliceTo_all
        rw [hnonlen]
        omega
      rw [hnonall]
      exact (List.perm_insertionSort evLe _).trans (List.filter_append_perm p l)

/-! ## Highlight-building loops -/

theorem buildHighlights_length (n : Nat) (l : List (GameEvent × ScoreBreakdown)) :
    (Track1.buildHighlights n l).length = l.length := by
  induction l generalizing n with
  | nil => rfl
  | cons x rest ih => simp [Track1.buildHighlights, ih]

theorem buildHighlights2_length (pref : Option UserPreference) (n : Nat)
    (l : List (GameEvent × ScoreBreakdown)) :
    (Track2.buildHighlights pref n l).length = l.length := by
  induction l generalizing n with
  | nil => rfl
  | cons x rest ih => simp [Track2.buildHighlights, ih]

theorem buildHighlights_mem {l : List (GameEvent × ScoreBreakdown)} :
    ∀ {n : Nat} {h : Highlight}, h ∈ Track1.buildHighlights n l →
      ∃ x ∈ l, ∃ r, h = Track1.toHighlight r x := by
  induction l with
  | nil => intro n h hm; simp [Track1.buildHighlights] at hm
  | cons y rest ih =>
    intro n h hm
    simp only [Track1.buildHighlights, List.mem_cons] at hm
    rcases hm with hm | hm
    · exact ⟨y, List.mem_cons_self y rest, n, hm⟩
    · obtain ⟨x, hx, r, hr⟩ := ih hm
      exact ⟨x, List.mem_cons_of_mem y hx, r, hr⟩

theorem buildHighlights_pairwise {R : GameEvent × ScoreBreakdown →
      GameEvent × ScoreBreakdown → Prop} {S : Highlight → Highlight → Prop}
    (hRS : ∀ x y r s, R x y → S (Track1.toHighlight r x) (Track1.toHighlight s y)) :
    ∀ (n : Nat) (l : List (GameEvent × ScoreBreakdown)), List.Pairwise R l →
      List.Pairwise S (Track1.buildHighlights n l) := by
  intro n l
  induction l generalizing n with
  | nil => intro _; exact List.Pairwise.nil
  | cons x rest ih =>
    intro hpw
    rcases List.pairwise_cons.mp hpw with ⟨hx, hrest⟩
    refine List.pairwise_cons.mpr ⟨?_, ih (n + 1) hrest⟩
    intro h hm
    obtain ⟨y, hy, r, hr⟩ := buildHighlights_mem hm
    rw [hr]
    exact hRS x y n r (hx y hy)

theorem select_core_length (sorted : List (GameEvent × ScoreBreakdown))
    (pref : Option UserPreference) (minc maxc : Int) (hmax : 0 ≤ maxc) :
    ((Track2.select_core sorted pref minc maxc).length : Int) =
      ((sorted.filter (fun x => x.1.importance == "critical")).length : Int) +
        (if ((sorted.filter (fun x => !(x.1.importance == "critical"))).length : Int) ≤ minc
          then ((sorted.filter (fun x => !(x.1.importance == "critical"))).length : Int)
          else if ((sorted.filter (fun x => !(x.1.importance == "critical"))).length : Int) ≤ maxc
          then ((sorted.filter (fun x => !(x.1.importance == "critical"))).length : Int)
          else maxc) := by
  simp only [Track2.select_core]
  set crit := sorted.filter (fun x => x.1.importance == "critical") with hcrit
  set nc := sorted.filter (fun x => !(x.1.importance == "critical")) with hnc
  set snc := if (nc.length : Int) ≤ minc then nc
    else if (nc.length : Int) ≤ maxc then nc else pySliceTo nc maxc with hsnc
  have hsl : ((snc).length : Int) =
      if (nc.length : Int) ≤ minc then (nc.length : Int)
      else if (nc.length : Int) ≤ maxc then (nc.length : Int) else maxc := by
    rw [hsnc]
    split_ifs with h1 h2
    · rfl
    · rfl
    · rw [length_pySliceTo nc maxc hmax]
      omega
  rcases pref with _ | p
  · simp only [buildHighlights2_length]
    push_cast [List.length_append]
    omega
  · rcases hfp : p.favorite_player with _ | fp
    · simp only [hfp, buildHighlights2_length]
      push_cast [List.length_append]
      omega
    · by_cases hemp : fp = ""
      · simp [hfp, hemp, buildHighlights2_length]
        omega
      · simp only [hfp, if_neg hemp, buildHighlights2_length,
          (apply_favorite_player_rule_perm _ fp).length_eq]
        push_cast [List.length_append]
        omega

/-! ## Permutation invariance of the initial sort -/

theorem map_score_sort_eq (f : GameEvent → ScoreBreakdown)
    (events1 events2 : List GameEvent) (hperm : events1.Perm events2)
    (hnodup : (events1.map GameEvent.id).Nodup) :
    List.insertionSort evLe (events1.map (fun e => (e, f e))) =
      List.insertionSort evLe (events2.map (fun e => (e, f e))) := by
  have hpm : (events1.map (fun e => (e, f e))).Perm (events2.map (fun e => (e, f e))) :=
    hperm.map _
  apply sorted_perm_eq_of_antisymm
    ((List.perm_insertionSort evLe _).trans (hpm.trans (List.perm_insertionSort evLe _).symm))
    (List.sorted_insertionSort evLe _) (List.sorted_insertionSort evLe _)
  intro a ha b hb hab hba
  have ha' : a ∈ events1.map (fun e => (e, f e)) :=
    (List.perm_insertionSort evLe _).mem_iff.mp ha
  have hb' : b ∈ events1.map (fun e => (e, f e)) :=
    (List.perm_insertionSort evLe _).mem_iff.mp hb
  obtain ⟨ea, hea, haeq⟩ := List.mem_map.mp ha'
  obtain ⟨eb, heb, hbeq⟩ := List.mem_map.mp hb'
  have hkey : sort_key a.1 a.2.total_score = sort_key b.1 b.2.total_score :=
    keyLe_antisymm _ _ hab hba
  have hid : a.1.id = b.1.id := congrArg (fun q => q.2.2.2) hkey
  rw [← haeq, ← hbeq] at hid
  have hee : ea = eb := List.inj_on_of_nodup_map hnodup hea heb hid
  rw [← haeq, ← hbeq, hee]

/-! ## Explanation lemmas (track1) -/

theorem sentence1_length_pos (e : GameEvent) : 0 < (Track1.sentence1 e).length := by
  simp only [Track1.sentence1]
  split_ifs with h1 h2 h3
  · simp only [String.length_append]
    have hl : ("This critical ").length = 14 := rfl
    omega
  · simp only [String.length_append]
    have hl : ("A high-impact ").length = 14 := rfl
    omega
  · simp only [String.length_append]
    have hl : ("A notable ").length = 10 := rfl
    omega
  · simp only [String.length_append]
    have hl : ("This ").length = 5 := rfl
    omega

theorem generate_explanation_ne_empty (e : GameEvent) (b : ScoreBreakdown) :
    Track1.generate_explanation e b ≠ "" := by
  have hpos : 0 < (Track1.generate_explanation e b).length := by
    simp only [Track1.generate_explanation]
    cases hd : Track1.detailsList e b with
    | nil => exact sentence1_length_pos e
    | cons x xs =>
      simp only [String.length_append]
      have := sentence1_length_pos e
      omega
  intro h
  rw [h] at hpos
  simp at hpos

theorem generate_explanation_critical (e : GameEvent) (b : ScoreBreakdown)
    (h : e.importance = "critical") :
    ∃ rest, Track1.generate_explanation e b =
      "This critical " ++ typeDisplay e.type ++ " by " ++ e.player ++
        " was a defining moment of the game." ++ rest := by
  have hs1 : Track1.sentence1 e =
      "This critical " ++ typeDisplay e.type ++ " by " ++ e.player ++
        " was a defining moment of the game." := by
    simp [Track1.sentence1, h]
  simp only [Track1.generate_explanation]
  cases hd : Track1.detailsList e b with
  | nil =>
    refine ⟨"", ?_⟩
    rw [hs1, String.append_empty]
  | cons x xs =>
    refine ⟨" " ++ (capFirst (String.intercalate ", " (x :: xs)) ++ "."), ?_⟩
    show Track1.sentence1 e ++ " " ++ (capFirst (String.intercalate ", " (x :: xs)) ++ ".") = _
    rw [hs1, String.append_assoc]

/-! ## Context-boost characterizations -/

theorem score_event_context_boosts (e : GameEvent) (p : Option UserPreference) :
    (Track1.score_event e p).context_boosts =
      if e.quarter = 4
        then dictInsert (contextFold Track1.CONTEXT_BOOST_MAP [] e.tags) "fourth_quarter" 10
        else contextFold Track1.CONTEXT_BOOST_MAP [] e.tags := by
  simp [Track1.score_event, Track1.mkScoreBreakdown]

theorem track1_context_lookup (e : GameEvent) (p : Option UserPreference) (k : String) :
    dictLookup (Track1.score_event e p).context_boosts k =
      (if k = "fourth_quarter" ∧ e.quarter = 4 then some 10
       else if k ∈ e.tags then Track1.CONTEXT_BOOST_MAP k else none) := by
  rw [score_event_context_boosts]
  by_cases hq : e.quarter = 4
  · rw [if_pos hq, dictLookup_dictInsert]
    by_cases hk : k = "fourth_quarter"
    · simp [hk, hq]
    · rw [if_neg hk, dictLookup_contextFold]
      rw [if_neg (fun hh : k = "fourth_quarter" ∧ e.quarter = 4 => hk hh.1)]
      simp only [dictLookup]
      cases hC : Track1.CONTEXT_BOOST_MAP k with
      | some v => simp [hC]
      | none => simp [hC]
  · rw [if_neg hq, dictLookup_contextFold]
    rw [if_neg (fun hh : k = "fourth_quarter" ∧ e.quarter = 4 => hq hh.2)]
    simp only [dictLookup]
    cases hC : Track1.CONTEXT_BOOST_MAP k with
    | some v => simp [hC]
    | none => simp [hC]

theorem track1_context_keys_nodup (e : GameEvent) (p : Option UserPreference) :
    ((Track1.score_event e p).context_boosts.map Prod.fst).Nodup := by
  rw [score_event_context_boosts]
  by_cases hq : e.quarter = 4
  · rw [if_pos hq]
    exact keys_nodup_dictInsert _ _ _
      (keys_nodup_contextFold Track1.CONTEXT_BOOST_MAP e.tags [] (by simp))
  · rw [if_neg hq]
    exact keys_nodup_contextFold Track1.CONTEXT_BOOST_MAP e.tags [] (by simp)

theorem track2_context_lookup (e : GameEvent) (k : String) :
    dictLookup (Track2.calculate_context_boosts e) k =
      (if k ∈ e.tags then Track2.tag_boost_map k else none) := by
  unfold Track2.calculate_context_boosts
  rw [dictLookup_contextFold]
  simp only [dictLookup]
  cases hC : Track2.tag_boost_map k with
  | some v => simp [hC]
  | none => simp [hC]

theorem track2_context_keys_nodup (e : GameEvent) :
    ((Track2.calculate_context_boosts e).map Prod.fst).Nodup :=
  keys_nodup_contextFold Track2.tag_boost_map e.tags [] (by simp)

/-! ## Pipeline-level length and ordering helpers -/

theorem scored_filter_crit_length (f : GameEvent → ScoreBreakdown) (events : List GameEvent) :
    ((List.insertionSort evLe (events.map (fun e => (e, f e)))).filter
      (fun x => x.1.importance == "critical")).length =
      events.countP (fun e => e.importance == "critical") := by
  rw [← List.countP_eq_length_filter]
  rw [(List.perm_insertionSort evLe (events.map (fun e => (e, f e)))).countP_eq]
  rw [List.countP_map]
  rfl

theorem scored_filter_noncrit_length (f : GameEvent → ScoreBreakdown) (events : List GameEvent) :
    ((List.insertionSort evLe (events.map (fun e => (e, f e)))).filter
      (fun x => !(x.1.importance == "critical"))).length =
      events.countP (fun e => !(e.importance == "critical")) := by
  rw [← List.countP_eq_length_filter]
  rw [(List.perm_insertionSort evLe (events.map (fun e => (e, f e)))).countP_eq]
  rw [List.countP_map]
  rfl

theorem countP_crit_split (events : List GameEvent) :
    events.countP (fun e => e.importance == "critical") +
      events.countP (fun e => !(e.importance == "critical")) = events.length := by
  rw [List.countP_eq_length_filter, List.countP_eq_length_filter]
  exact filter_not_length _ events

theorem track1_select_length (events : List GameEvent) (prefs : Option UserPreference)
    (minc maxc : Int) (hmax : 0 ≤ maxc) (hne : events ≠ []) :
    ((Track1.select_highlights events prefs minc maxc).length : Int) =
      min (events.length : Int) maxc := by
  unfold Track1.select_highlights
  rw [if_neg (by simpa [List.isEmpty_iff] using hne)]
  rw [buildHighlights_length]
  have hne2 : events.map (fun e => (e, Track1.score_event e (Track1.normalizePrefs prefs))) ≠ [] := by
    intro h
    exact hne (List.map_eq_nil_iff.mp h)
  rw [rank_and_filter_length _ minc maxc hmax hne2]
  simp

theorem track2_select_length (events : List GameEvent) (pref : Option UserPreference)
    (minc maxc : Int) (hmax : 0 ≤ maxc) (hne : events ≠ []) :
    ((Track2.select_highlights events pref minc maxc).length : Int) =
      (events.countP (fun e => e.importance == "critical") : Int) +
        (if (events.countP (fun e => !(e.importance == "critical")) : Int) ≤ minc
          then (events.countP (fun e => !(e.importance == "critical")) : Int)
          else if (events.countP (fun e => !(e.importance == "critical")) : Int) ≤ maxc
          then (events.countP (fun e => !(e.importance == "critical")) : Int)
          else maxc) := by
  unfold Track2.select_highlights
  rw [if_neg (by simpa [List.isEmpty_iff] using hne)]
  rw [select_core_length _ _ _ _ hmax]
  rw [scored_filter_crit_length, scored_filter_noncrit_length]

theorem rank_and_filter_sorted (scored : List (GameEvent × ScoreBreakdown))
    (minc maxc : Int) :
    List.Sorted evLe (Track1.rank_and_filter scored minc maxc) := by
  unfold Track1.rank_and_filter
  by_cases he : scored.isEmpty
  · rw [if_pos he]
    exact List.sorted_nil
  · rw [if_neg he]
    simp only [Track1.rankCore]
    exact List.sorted_insertionSort evLe _

theorem rank_and_filter_perm_eq {l1 l2 : List (GameEvent × ScoreBreakdown)}
    (hp : l1.Perm l2)
    (hsort : List.insertionSort evLe l1 = List.insertionSort evLe l2)
    (minc maxc : Int) :
    Track1.rank_and_filter l1 minc maxc = Track1.rank_and_filter l2 minc maxc := by
  have he : l1.isEmpty = l2.isEmpty := by
    have hl := hp.length_eq
    cases l1 <;> cases l2 <;> simp_all
  unfold Track1.rank_and_filter
  rw [he, hsort]

theorem select_core_min_irrelevant (sorted : List (GameEvent × ScoreBreakdown))
    (pref : Option UserPreference) (m1 m2 maxc : Int)
    (h1 : m1 ≤ maxc) (h2 : m2 ≤ maxc) :
    Track2.select_core sorted pref m1 maxc = Track2.select_core sorted pref m2 maxc := by
  simp only [Track2.select_core]
  have key : ∀ m : Int, m ≤ maxc →
      (if ((sorted.filter (fun x => !(x.1.importance == "critical"))).length : Int) ≤ m
        then sorted.filter (fun x => !(x.1.importance == "critical"))
        else if ((sorted.filter (fun x => !(x.1.importance == "critical"))).length : Int) ≤ maxc
        then sorted.filter (fun x => !(x.1.importance == "critical"))
        else pySliceTo (sorted.filter (fun x => !(x.1.importance == "critical"))) maxc) =
      (if ((sorted.filter (fun x => !(x.1.importance == "critical"))).length : Int) ≤ maxc
        then sorted.filter (fun x => !(x.1.importance == "critical"))
        else pySliceTo (sorted.filter (fun x => !(x.1.importance == "critical"))) maxc) := by
    intro m hm
    split_ifs <;> first | rfl | (exfalso; omega)
  rw [key m1 h1, key m2 h2]

/-! ## Claim theorems -/

/-- C7: for every event and preference, the breakdown built by the scoring
function of each implementation satisfies
`total_score = base_score + player_boost + team_boost + sum(context_boosts)`,
and these are the only breakdowns the pipelines construct. -/
theorem claim7_total_score (e : GameEvent) (p : Option UserPreference) :
    (Track1.score_event e p).total_score =
      (Track1.score_event e p).base_score + (Track1.score_event e p).player_boost +
        (Track1.score_event e p).team_boost +
        sumValues (Track1.score_event e p).context_boosts ∧
    (Track2.calculate_score e p).total_score =
      (Track2.calculate_score e p).base_score + (Track2.calculate_score e p).player_boost +
        (Track2.calculate_score e p).team_boost +
        sumValues (Track2.calculate_score e p).context_boosts :=
  ⟨rfl, rfl⟩

/-- C10: the track2 favorite-player rule returns exactly the same multiset
of (event, breakdown) pairs it was given — it only ever reorders the
selection, never adds or removes an entry. -/
theorem claim10_quota_rule_perm (scored : List (GameEvent × ScoreBreakdown)) (fav : String) :
    (Track2.apply_favorite_player_rule scored fav).Perm scored :=
  apply_favorite_player_rule_perm scored fav

/-- C5 (amended): in track1, `context_boosts` holds exactly the recognized
tags of the event under `{clutch:20, game_winner:25, buzzer_beater:20,
highlight_reel:15}` plus a synthetic `fourth_quarter = 10` entry exactly
when `quarter == 4`; in track2, the entries come solely from the tags under
`{clutch:20, game_winner:25, buzzer_beater:15, highlight_reel:15,
fourth_quarter:10}`, with no quarter-based entry. Keys are unique in both. -/
theorem claim5_context_boosts (e : GameEvent) (p : Option UserPreference) (k : String) :
    dictLookup (Track1.score_event e p).context_boosts k =
      (if k = "fourth_quarter" ∧ e.quarter = 4 then some 10
       else if k ∈ e.tags then Track1.CONTEXT_BOOST_MAP k else none) ∧
    ((Track1.score_event e p).context_boosts.map Prod.fst).Nodup ∧
    dictLookup (Track2.calculate_context_boosts e) k =
      (if k ∈ e.tags then Track2.tag_boost_map k else none) ∧
    ((Track2.calculate_context_boosts e).map Prod.fst).Nodup :=
  ⟨track1_context_lookup e p k, track1_context_keys_nodup e p,
    track2_context_lookup e k, track2_context_keys_nodup e⟩

/-- C5: counterexample to the claim as stated — in track2, an event in
quarter 4 whose only tag is `buzzer_beater` gets boost 15 (not 20) and no
`fourth_quarter` entry at all. -/
theorem claim5_counterexample :
    exBuzzerQ4.quarter = 4 ∧
    Track2.calculate_context_boosts exBuzzerQ4 = [("buzzer_beater", 15)] ∧
    dictLookup (Track2.calculate_context_boosts exBuzzerQ4) "fourth_quarter" = none :=
  ⟨rfl, rfl, rfl⟩

/-- C6 (amended): track1's explanation is never empty, and for critical
events it begins with exactly the template
`This critical {type} by {player} was a defining moment of the game.`
(with underscores in the type shown as spaces). -/
theorem claim6_explanation (e : GameEvent) (b : ScoreBreakdown) :
    Track1.generate_explanation e b ≠ "" ∧
    (e.importance = "critical" →
      ∃ rest, Track1.generate_explanation e b =
        "This critical " ++ typeDisplay e.type ++ " by " ++ e.player ++
          " was a defining moment of the game." ++ rest) :=
  ⟨generate_explanation_ne_empty e b, fun h => generate_explanation_critical e b h⟩

/-- C6: witness instantiating the amended claim at a concrete critical event. -/
theorem claim6_witness :
    Track1.generate_explanation exPlainCritical
        (Track1.score_event exPlainCritical none) ≠ "" ∧
    ∃ rest, Track1.generate_explanation exPlainCritical
        (Track1.score_event exPlainCritical none) =
      "This critical " ++ typeDisplay exPlainCritical.type ++ " by " ++
        exPlainCritical.player ++ " was a defining moment of the game." ++ rest :=
  ⟨(claim6_explanation exPlainCritical (Track1.score_event exPlainCritical none)).1,
    (claim6_explanation exPlainCritical (Track1.score_event exPlainCritical none)).2 rfl⟩

/-- C6: counterexample to the claim as stated — track2 renders a critical
event as `Critical game moment.`, not via the critical sentence template. -/
theorem claim6_counterexample :
    Track2.generate_explanation exPlainCritical
      (Track2.calculate_score exPlainCritical none) none = "Critical game moment." ∧
    ∀ rest, Track2.generate_explanation exPlainCritical
        (Track2.calculate_score exPlainCritical none) none ≠
      "This critical dunk by P1 was a defining moment of the game." ++ rest := by
  refine ⟨rfl, ?_⟩
  intro rest h
  have hv : ("Critical game moment." : String) =
      "This critical dunk by P1 was a defining moment of the game." ++ rest := h
  have hl := congrArg String.length hv
  rw [String.length_append] at hl
  have h1 : ("Critical game moment." : String).length = 21 := rfl
  have h2 : ("This critical dunk by P1 was a defining moment of the game." : String).length = 59 :=
    rfl
  omega

/-- C4 (amended): every output of track1's pipeline is sorted by the
tie-break comparator (score desc, quarter desc, importance rank desc,
id asc), regardless of which inclusion rule added an item. -/
theorem claim4_track1_sorted (events : List GameEvent) (prefs : Option UserPreference)
    (minc maxc : Int) :
    List.Sorted hlLe (Track1.select_highlights events prefs minc maxc) := by
  unfold Track1.select_highlights
  by_cases he : events.isEmpty
  · rw [if_pos he]
    exact List.sorted_nil
  · rw [if_neg he]
    exact @buildHighlights_pairwise evLe hlLe (fun x y r s h => h) 1 _
      (rank_and_filter_sorted _ minc maxc)

/-- C4: counterexample to the claim as stated — track2 emits critical
events first even when a non-critical event outscores them, so its output
is not comparator-sorted. -/
theorem claim4_counterexample :
    (Track2.select_highlights [exPlainCritical, exBoostedHigh] none 5 8).map
      (fun h => h.score) = [100, 120] ∧
    ¬ List.Sorted hlLe (Track2.select_highlights [exPlainCritical, exBoostedHigh] none 5 8) := by
  constructor
  · rfl
  · decide

/-- C1: evaluation at a failing input — with nine critical events and
`max_count = 8`, track1 drops the comparator-last critical event (`c9`)
even though its own rule says all critical events are force-included;
track2 keeps all nine. -/
theorem claim1_track1_caps_critical :
    exNineCritical.length = 9 ∧
    (∀ e ∈ exNineCritical, e.importance = "critical") ∧
    (Track1.select_highlights exNineCritical none 5 8).map (fun h => h.event.id) =
      ["c1", "c2", "c3", "c4", "c5", "c6", "c7", "c8"] ∧
    (Track2.select_highlights exNineCritical none 5 8).map (fun h => h.event.id) =
      ["c1", "c2", "c3", "c4", "c5", "c6", "c7", "c8", "c9"] := by
  refine ⟨rfl, by decide, by decide, by decide⟩

/-- C2: evaluation at a failing input — four favorite-player events exist
among the twelve inputs (enough supply for the quota of four), yet both
implementations return zero favorite-player events: track1 has no quota
logic at all, and track2 measures supply inside the already-made selection
(0 < 3 there), so its rule never fires. -/
theorem claim2_quota_not_enforced :
    exQuotaEvents.countP (fun e => e.player == "Star") = 4 ∧
    (Track2.select_highlights exQuotaEvents (some ⟨some "Star", none⟩) 5 8).length = 8 ∧
    (Track2.select_highlights exQuotaEvents (some ⟨some "Star", none⟩) 5 8).countP
      (fun h => h.event.player == "Star") = 0 ∧
    (Track1.select_highlights exQuotaEvents (some ⟨some "Star", none⟩) 5 8).countP
      (fun h => h.event.player == "Star") = 0 := by
  refine ⟨rfl, by decide, by decide, by decide⟩

/-- C3 (amended): track1's output size behaves exactly as claimed (given
sane counts `0 ≤ min_count ≤ max_count`); track2 satisfies the first two
cases, but when the non-critical count exceeds `max_count` its output size
is `critical count + max_count`, not `max_count`. -/
theorem claim3_output_size (events : List GameEvent) (prefs : Option UserPreference)
    (minc maxc : Int) (h0 : 0 ≤ minc) (hmm : minc ≤ maxc) :
    (((events.length : Int) < minc →
        ((Track1.select_highlights events prefs minc maxc).length : Int) = events.length) ∧
      (minc ≤ (events.length : Int) → (events.length : Int) ≤ maxc →
        ((Track1.select_highlights events prefs minc maxc).length : Int) = events.length) ∧
      (maxc < (events.length : Int) →
        (events.countP (fun e => e.importance == "critical") : Int) < minc →
        ((Track1.select_highlights events prefs minc maxc).length : Int) = maxc)) ∧
    (((events.length : Int) < minc →
        ((Track2.select_highlights events prefs minc maxc).length : Int) = events.length) ∧
      ((events.length : Int) ≤ maxc →
        ((Track2.select_highlights events prefs minc maxc).length : Int) = events.length) ∧
      (maxc < (events.countP (fun e => !(e.importance == "critical")) : Int) →
        ((Track2.select_highlights events prefs minc maxc).length : Int) =
          (events.countP (fun e => e.importance == "critical") : Int) + maxc)) := by
  have hmax : (0 : Int) ≤ maxc := le_trans h0 hmm
  by_cases hne : events = []
  · subst hne
    refine ⟨⟨?_, ?_, ?_⟩, ⟨?_, ?_, ?_⟩⟩
    · intro h
      simp [Track1.select_highlights]
    · intro h1 h2
      simp [Track1.select_highlights]
    · intro h1 h2
      simp only [List.length_nil, Nat.cast_zero] at h1
      simp [Track1.select_highlights]
      omega
    · intro h
      simp [Track2.select_highlights]
    · intro h
      simp [Track2.select_highlights]
    · intro h
      simp only [List.countP_nil, Nat.cast_zero] at h
      simp [Track2.select_highlights]
      omega
  · have ht1 := track1_select_length events prefs minc maxc hmax hne
    have ht2 := track2_select_length events prefs minc maxc hmax hne
    have hsum := countP_crit_split events
    refine ⟨⟨?_, ?_, ?_⟩, ⟨?_, ?_, ?_⟩⟩
    · intro h
      rw [ht1]
      omega
    · intro h1 h2
      rw [ht1]
      omega
    · intro h1 h2
      rw [ht1]
      omega
    · intro h
      rw [ht2]
      split_ifs <;> omega
    · intro h
      rw [ht2]
      split_ifs <;> omega
    · intro h
      rw [ht2]
      split_ifs <;> omega

/-- C3: witness instantiating the amended size statement at nine medium
events with the default counts. -/
theorem claim3_witness :
    ((Track1.select_highlights exNineMedium none 5 8).length : Int) = 8 ∧
    ((Track2.select_highlights exNineMedium none 5 8).length : Int) =
      (exNineMedium.countP (fun e => e.importance == "critical") : Int) + 8 :=
  ⟨(claim3_output_size exNineMedium none 5 8 (by decide) (by decide)).1.2.2
      (by decide) (by decide),
    (claim3_output_size exNineMedium none 5 8 (by decide) (by decide)).2.2.2 (by decide)⟩

/-- C3: counterexample to the claim as stated — eleven events with two
criticals exceed `max_count = 8`, fewer than `min_count = 5` criticals
exist, yet track2 returns 10 highlights, not `max_count`. -/
theorem claim3_counterexample :
    exTwoCritNineMedium.length = 11 ∧
    exTwoCritNineMedium.countP (fun e => e.importance == "critical") = 2 ∧
    (Track2.select_highlights exTwoCritNineMedium none 5 8).length = 10 := by
  refine ⟨rfl, rfl, by decide⟩

/-- C9 (amended): `min_count` never influences track1's output; it never
influences track2's output either, provided both values are at most
`max_count` — when `min_count > max_count`, track2's first branch returns
all non-critical events and the outputs can differ. -/
theorem claim9_min_count_no_effect (events : List GameEvent)
    (prefs : Option UserPreference) (maxc m1 m2 : Int) :
    Track1.select_highlights events prefs m1 maxc =
      Track1.select_highlights events prefs m2 maxc ∧
    (m1 ≤ maxc → m2 ≤ maxc →
      Track2.select_highlights events prefs m1 maxc =
        Track2.select_highlights events prefs m2 maxc) := by
  constructor
  · rfl
  · intro h1 h2
    unfold Track2.select_highlights
    by_cases he : events.isEmpty
    · rw [if_pos he, if_pos he]
    · rw [if_neg he, if_neg he]
      exact select_core_min_irrelevant _ prefs m1 m2 maxc h1 h2

/-- C9: witness instantiating the min-count irrelevance at concrete values. -/
theorem claim9_witness :
    Track1.select_highlights exNineMedium none 3 8 =
      Track1.select_highlights exNineMedium none 7 8 ∧
    Track2.select_highlights exNineMedium none 3 8 =
      Track2.select_highlights exNineMedium none 7 8 :=
  ⟨(claim9_min_count_no_effect exNineMedium none 8 3 7).1,
    (claim9_min_count_no_effect exNineMedium none 8 3 7).2 (by decide) (by decide)⟩

/-- C9: counterexample to the claim as stated — with nine medium events
and `max_count = 8`, track2 returns 8 highlights for `min_count = 5` but
all 9 for `min_count = 100`. -/
theorem claim9_counterexample :
    (Track2.select_highlights exNineMedium none 5 8).length = 8 ∧
    (Track2.select_highlights exNineMedium none 100 8).length = 9 := by
  refine ⟨by decide, by decide⟩

/-- C8: with unique event ids, both pipelines are invariant under
permutations of the input event list (identical inputs trivially included),
so the output is deterministic and independent of input collection order. -/
theorem claim8_perm_invariance (events1 events2 : List GameEvent)
    (prefs : Option UserPreference) (minc maxc : Int)
    (hperm : events1.Perm events2) (hnodup : (events1.map GameEvent.id).Nodup) :
    Track1.select_highlights events1 prefs minc maxc =
      Track1.select_highlights events2 prefs minc maxc ∧
    Track2.select_highlights events1 prefs minc maxc =
      Track2.select_highlights events2 prefs minc maxc := by
  have he : events1.isEmpty = events2.isEmpty := by
    have hl := hperm.length_eq
    cases events1 <;> cases events2 <;> simp_all
  constructor
  · unfold Track1.select_highlights
    rw [he, rank_and_filter_perm_eq (hperm.map _)
      (map_score_sort_eq (fun e => Track1.score_event e (Track1.normalizePrefs prefs))
        events1 events2 hperm hnodup) minc maxc]
  · unfold Track2.select_highlights
    rw [he, map_score_sort_eq (fun e => Track2.calculate_score e prefs)
      events1 events2 hperm hnodup]

/-- C8: witness instantiating permutation invariance on a two-event list
and its transposition. -/
theorem claim8_witness :
    Track1.select_highlights [exW1, exW2] none 5 8 =
      Track1.select_highlights [exW2, exW1] none 5 8 ∧
    Track2.select_highlights [exW1, exW2] none 5 8 =
      Track2.select_highlights [exW2, exW1] none 5 8 :=
  claim8_perm_invariance [exW1, exW2] [exW2, exW1] none 5 8
    (List.Perm.swap exW2 exW1 []) (by decide)
